import Mathlib

/-! Shallow embedding of the YieldPilot custody engine: the `YieldPilotVault`
contract, the `CCIPBridge` contract and the `YieldPilotRouter` contract
(all under `src/contracts/src`).  Solidity `uint256`/`uint64`/`address`/
`bytes32` values are modelled as `Nat`; Solidity 0.8 checked arithmetic
that can underflow is modelled by an explicit bounds test returning the
`Panic` error; a revert anywhere is modelled by the `Except` error branch,
which discards every intermediate write (the EVM rolls the whole call
back).  Mappings are total functions updated with `fupd`.
-/

namespace YieldPilot

/-- The custom errors declared by the three contracts, plus `Panic` for
checked-arithmetic / array-bounds aborts and the two standard ERC20
failure modes of the external token. -/
inductive Err where
  | OnlyOwner
  | OnlyRouter
  | InsufficientBalance
  | StrategyNotFound
  | StrategyAlreadyExecuted
  | StrategyNotApproved
  | InvalidAmount
  | StalePriceFeed
  | ChainNotAllowed
  | InsufficientLinkFees
  | MessageAlreadyProcessed
  | InvalidReceiver
  | OnlyVaultOrOwner
  | ProtocolNotActive
  | InsufficientFunds
  | InvalidProtocol
  | Panic
  | ERC20InsufficientBalance
  | ERC20InsufficientAllowance
  deriving DecidableEq

/-- Pointwise update of a Solidity mapping. -/
def fupd {α β : Type} [DecidableEq α] (f : α → β) (a : α) (v : β) : α → β :=
  fun x => if x = a then v else f x

/-- State of one ERC20 token: balances and allowances
(`allow owner spender`). -/
structure ERC20 where
  bal : Nat → Nat
  allow : Nat → Nat → Nat

/-- Unchecked balance movement, used once the guards of `transfer` /
`transferFrom` have passed. -/
def ERC20.move (t : ERC20) (src dst amount : Nat) : ERC20 :=
  let b1 := fupd t.bal src (t.bal src - amount)
  { t with bal := fupd b1 dst (b1 dst + amount) }

/-- `token.transfer(dst, amount)` issued by `src`. -/
def ERC20.transfer (t : ERC20) (src dst amount : Nat) : Except Err ERC20 :=
  if t.bal src < amount then .error .ERC20InsufficientBalance
  else .ok (t.move src dst amount)

/-- `token.transferFrom(src, dst, amount)` issued by `spender`. -/
def ERC20.transferFrom (t : ERC20) (spender src dst amount : Nat) :
    Except Err ERC20 :=
  if t.allow src spender < amount then .error .ERC20InsufficientAllowance
  else if t.bal src < amount then .error .ERC20InsufficientBalance
  else
    let t1 := t.move src dst amount
    .ok { t1 with
          allow := fupd t1.allow src
            (fupd (t1.allow src) spender (t1.allow src spender - amount)) }

/-- `YieldPilotVault.Allocation`.  `chainSelector = 0` means the current
chain. -/
structure Allocation where
  chainSelector : Nat
  protocol : Nat
  asset : Nat
  amount : Nat
  expectedApy : Nat
  deriving DecidableEq

/-- `YieldPilotVault.Strategy`. -/
structure Strategy where
  id : Nat
  user : Nat
  allocations : List Allocation
  totalAmount : Nat
  createdAt : Nat
  executed : Bool
  approved : Bool
  deriving DecidableEq

/-- The all-zero record a Solidity mapping returns for an unset strategy
slot. -/
def Strategy.unset : Strategy :=
  ⟨0, 0, [], 0, 0, false, false⟩

/-- `YieldPilotVault.UserPosition`. -/
structure UserPosition where
  deposited : Nat
  activeStrategyId : Nat
  deriving DecidableEq

/-- Storage of one `YieldPilotVault` instance, together with the shared
USDC token state and the vault own address (`address(this)`).
`time` is the ambient `block.timestamp`. -/
structure VaultState where
  vaultAddr : Nat
  owner : Nat
  router : Nat
  bridge : Nat
  time : Nat
  nextStrategyId : Nat
  strategies : Nat → Strategy
  positions : Nat → UserPosition
  balances : Nat → Nat
  usdc : ERC20

/-- The vault constructor: deployer becomes owner, `nextStrategyId`
starts at 1, every mapping is empty. -/
def VaultState.init (deployer vaultAddr time : Nat) (usdc : ERC20) : VaultState :=
  { vaultAddr := vaultAddr
  , owner := deployer
  , router := 0
  , bridge := 0
  , time := time
  , nextStrategyId := 1
  , strategies := fun _ => Strategy.unset
  , positions := fun _ => ⟨0, 0⟩
  , balances := fun _ => 0
  , usdc := usdc }

/-- `YieldPilotVault.deposit`. -/
def VaultState.deposit (σ : VaultState) (caller amount : Nat) :
    Except Err VaultState :=
  if amount = 0 then .error .InvalidAmount
  else
    match σ.usdc.transferFrom σ.vaultAddr caller σ.vaultAddr amount with
    | .error e => .error e
    | .ok usdc =>
      .ok { σ with
            usdc := usdc
          , balances := fupd σ.balances caller (σ.balances caller + amount)
          , positions := fupd σ.positions caller
              { σ.positions caller with
                deposited := (σ.positions caller).deposited + amount } }

/-- `YieldPilotVault.withdraw`.  The checked subtraction
`positions[msg.sender].deposited -= amount` aborts with a panic when the
tracked deposited total is below `amount`. -/
def VaultState.withdraw (σ : VaultState) (caller amount : Nat) :
    Except Err VaultState :=
  if amount = 0 then .error .InvalidAmount
  else if σ.balances caller < amount then .error .InsufficientBalance
  else if (σ.positions caller).deposited < amount then .error .Panic
  else
    match σ.usdc.transfer σ.vaultAddr caller amount with
    | .error e => .error e
    | .ok usdc =>
      .ok { σ with
            usdc := usdc
          , balances := fupd σ.balances caller (σ.balances caller - amount)
          , positions := fupd σ.positions caller
              { σ.positions caller with
                deposited := (σ.positions caller).deposited - amount } }

/-- `YieldPilotVault.proposeStrategy`. -/
def VaultState.proposeStrategy (σ : VaultState) (caller user : Nat)
    (allocations : List Allocation) (totalAmount : Nat) :
    Except Err (VaultState × Nat) :=
  if ¬ (caller = σ.router ∨ caller = σ.owner) then .error .OnlyRouter
  else if σ.balances user < totalAmount then .error .InsufficientBalance
  else
    .ok ({ σ with
           nextStrategyId := σ.nextStrategyId + 1
         , strategies := fupd σ.strategies σ.nextStrategyId
             { id := σ.nextStrategyId
             , user := user
             , allocations := allocations
             , totalAmount := totalAmount
             , createdAt := σ.time
             , executed := false
             , approved := false } }, σ.nextStrategyId)

/-- `YieldPilotVault.approveStrategy`. -/
def VaultState.approveStrategy (σ : VaultState) (caller sid : Nat) :
    Except Err VaultState :=
  if (σ.strategies sid).id = 0 then .error .StrategyNotFound
  else if ¬ ((σ.strategies sid).user = caller) then .error .OnlyOwner
  else if (σ.strategies sid).executed then .error .StrategyAlreadyExecuted
  else .ok { σ with
             strategies := fupd σ.strategies sid
               { σ.strategies sid with approved := true } }

/-- `YieldPilotVault.executeStrategy`. -/
def VaultState.executeStrategy (σ : VaultState) (caller sid : Nat) :
    Except Err VaultState :=
  if ¬ (caller = σ.router ∨ caller = σ.owner) then .error .OnlyRouter
  else if (σ.strategies sid).id = 0 then .error .StrategyNotFound
  else if (σ.strategies sid).approved = false then .error .StrategyNotApproved
  else if (σ.strategies sid).executed then .error .StrategyAlreadyExecuted
  else if σ.balances (σ.strategies sid).user < (σ.strategies sid).totalAmount then
    .error .InsufficientBalance
  else
    match σ.usdc.transfer σ.vaultAddr σ.router (σ.strategies sid).totalAmount with
    | .error e => .error e
    | .ok usdc =>
      .ok { σ with
            usdc := usdc
          , balances := fupd σ.balances (σ.strategies sid).user
              (σ.balances (σ.strategies sid).user - (σ.strategies sid).totalAmount)
          , strategies := fupd σ.strategies sid { σ.strategies sid with executed := true }
          , positions := fupd σ.positions (σ.strategies sid).user
              { σ.positions (σ.strategies sid).user with activeStrategyId := sid } }

/-- `YieldPilotVault.returnFunds`. -/
def VaultState.returnFunds (σ : VaultState) (caller user amount : Nat) :
    Except Err VaultState :=
  if ¬ (caller = σ.router ∨ caller = σ.owner) then .error .OnlyRouter
  else
    match σ.usdc.transferFrom σ.vaultAddr caller σ.vaultAddr amount with
    | .error e => .error e
    | .ok usdc =>
      .ok { σ with
            usdc := usdc
          , balances := fupd σ.balances user (σ.balances user + amount) }

/-- `YieldPilotVault.setRouter`. -/
def VaultState.setRouter (σ : VaultState) (caller r : Nat) :
    Except Err VaultState :=
  if ¬ (caller = σ.owner) then .error .OnlyOwner
  else .ok { σ with router := r }

/-- `YieldPilotVault.setBridge`. -/
def VaultState.setBridge (σ : VaultState) (caller b : Nat) :
    Except Err VaultState :=
  if ¬ (caller = σ.owner) then .error .OnlyOwner
  else .ok { σ with bridge := b }

/-- `YieldPilotVault.getLatestPrice`, with the oracle answer
`(price, updatedAt)` and its `decimals` passed in explicitly.  The
Solidity expression `block.timestamp - updatedAt` is checked: a feed
updated in the future aborts with a panic. -/
def getLatestPrice (now updatedAt : Nat) (price : Int) (decimals : Nat) :
    Except Err (Int × Nat) :=
  if updatedAt ≤ now then
    if 3600 < now - updatedAt then .error .StalePriceFeed
    else .ok (price, decimals)
  else .error .Panic

/-- `YieldPilotVault.validateUsdcPeg`. -/
def validateUsdcPeg (now updatedAt : Nat) (price : Int) (decimals : Nat) :
    Except Err Bool :=
  match getLatestPrice now updatedAt price decimals with
  | .error e => .error e
  | .ok (p, d) =>
    .ok (decide (10 ^ d * 99 / 100 < (if 0 < p then p.toNat else 0)) &&
         decide ((if 0 < p then p.toNat else 0) < 10 ^ d * 101 / 100))

/-- One state-mutating entry point of the vault, with the external
caller (`msg.sender`) recorded in the operation. -/
inductive VOp where
  | depositOp (caller amount : Nat)
  | withdrawOp (caller amount : Nat)
  | proposeOp (caller user : Nat) (allocations : List Allocation) (totalAmount : Nat)
  | approveOp (caller sid : Nat)
  | executeOp (caller sid : Nat)
  | returnFundsOp (caller user amount : Nat)
  | setRouterOp (caller r : Nat)
  | setBridgeOp (caller b : Nat)

/-- Small-step semantics of the vault: the next state and, for
`proposeStrategy`, the returned id. -/
def vstep (σ : VaultState) : VOp → Except Err (VaultState × Option Nat)
  | .depositOp c a => (σ.deposit c a).map fun σ' => (σ', none)
  | .withdrawOp c a => (σ.withdraw c a).map fun σ' => (σ', none)
  | .proposeOp c u al t => (σ.proposeStrategy c u al t).map fun p => (p.1, some p.2)
  | .approveOp c s => (σ.approveStrategy c s).map fun σ' => (σ', none)
  | .executeOp c s => (σ.executeStrategy c s).map fun σ' => (σ', none)
  | .returnFundsOp c u a => (σ.returnFunds c u a).map fun σ' => (σ', none)
  | .setRouterOp c r => (σ.setRouter c r).map fun σ' => (σ', none)
  | .setBridgeOp c b => (σ.setBridge c b).map fun σ' => (σ', none)

/-- The state after one call: a revert leaves the state unchanged. -/
def applyOp (σ : VaultState) (op : VOp) : VaultState :=
  match vstep σ op with
  | .ok (σ', _) => σ'
  | .error _ => σ

/-- Run a call sequence and collect the ids returned by the successful
`proposeStrategy` calls, in order. -/
def runCollect (σ : VaultState) : List VOp → List Nat
  | [] => []
  | op :: rest =>
    match vstep σ op with
    | .ok (σ', some sid) => sid :: runCollect σ' rest
    | .ok (σ', none) => runCollect σ' rest
    | .error _ => runCollect σ rest

/-- `Client.EVMTokenAmount`. -/
structure EVMTokenAmount where
  token : Nat
  amount : Nat
  deriving DecidableEq

/-- `Client.Any2EVMMessage`; the opaque `sender` and `data` byte strings
are modelled as numbers. -/
structure Any2EVMMessage where
  messageId : Nat
  sourceChainSelector : Nat
  sender : Nat
  data : Nat
  destTokenAmounts : List EVMTokenAmount
  deriving DecidableEq

/-- `Client.EVM2AnyMessage`; `receiver` holds the abi-encoded receiver
address and `extraArgs` is always empty in this code base, so it is
dropped. -/
structure EVM2AnyMessage where
  receiver : Nat
  data : Nat
  tokenAmounts : List EVMTokenAmount
  feeToken : Nat
  deriving DecidableEq

/-- The external CCIP router consumed by the bridge: a fee quote and an
outbound send returning a message id. -/
structure Transport where
  getFee : Nat → EVM2AnyMessage → Nat
  send : Nat → EVM2AnyMessage → Nat

/-- Storage of one `CCIPBridge` instance, together with the USDC and
LINK token states, the bridge own address, and the log of
`BridgeReceived` events `(messageId, sourceChainSelector, amount)`,
newest first. -/
structure BridgeState where
  bridgeAddr : Nat
  owner : Nat
  ccipRouter : Nat
  usdcAddr : Nat
  linkAddr : Nat
  usdc : ERC20
  link : ERC20
  destinationReceivers : Nat → Nat
  allowedChains : Nat → Bool
  processedMessages : Nat → Bool
  receivedLog : List (Nat × Nat × Nat)

/-- The bridge constructor: deployer becomes owner, mappings empty, and
the CCIP router is granted the maximal USDC and LINK allowance. -/
def BridgeState.init (deployer bridgeAddr ccipRouter usdcAddr linkAddr : Nat)
    (usdc link : ERC20) (maxAllowance : Nat) : BridgeState :=
  { bridgeAddr := bridgeAddr
  , owner := deployer
  , ccipRouter := ccipRouter
  , usdcAddr := usdcAddr
  , linkAddr := linkAddr
  , usdc := { usdc with
              allow := fupd usdc.allow bridgeAddr
                (fupd (usdc.allow bridgeAddr) ccipRouter maxAllowance) }
  , link := { link with
              allow := fupd link.allow bridgeAddr
                (fupd (link.allow bridgeAddr) ccipRouter maxAllowance) }
  , destinationReceivers := fun _ => 0
  , allowedChains := fun _ => false
  , processedMessages := fun _ => false
  , receivedLog := [] }

/-- `CCIPBridge.configureChain`. -/
def BridgeState.configureChain (σ : BridgeState) (caller chainSelector receiver : Nat) :
    Except Err BridgeState :=
  if ¬ (caller = σ.owner) then .error .OnlyOwner
  else .ok { σ with
             destinationReceivers := fupd σ.destinationReceivers chainSelector receiver
           , allowedChains := fupd σ.allowedChains chainSelector true }

/-- `CCIPBridge.disableChain`. -/
def BridgeState.disableChain (σ : BridgeState) (caller chainSelector : Nat) :
    Except Err BridgeState :=
  if ¬ (caller = σ.owner) then .error .OnlyOwner
  else .ok { σ with allowedChains := fupd σ.allowedChains chainSelector false }

/-- The outbound CCIP message built by `CCIPBridge.bridgeTokens` (and by
`estimateFee`). -/
def BridgeState.buildMessage (σ : BridgeState) (destChainSelector amount data : Nat) :
    EVM2AnyMessage :=
  { receiver := σ.destinationReceivers destChainSelector
  , data := data
  , tokenAmounts := [⟨σ.usdcAddr, amount⟩]
  , feeToken := σ.linkAddr }

/-- `CCIPBridge.bridgeTokens`.  Token pulls by the CCIP router itself during
`ccipSend` happen in external code and are not modelled. -/
def BridgeState.bridgeTokens (σ : BridgeState) (T : Transport)
    (caller destChainSelector amount data : Nat) :
    Except Err (BridgeState × Nat) :=
  if σ.allowedChains destChainSelector = false then .error .ChainNotAllowed
  else if σ.destinationReceivers destChainSelector = 0 then .error .InvalidReceiver
  else
    match σ.usdc.transferFrom σ.bridgeAddr caller σ.bridgeAddr amount with
    | .error e => .error e
    | .ok usdc =>
      if σ.link.bal σ.bridgeAddr <
          T.getFee destChainSelector (σ.buildMessage destChainSelector amount data) then
        .error .InsufficientLinkFees
      else
        .ok ({ σ with usdc := usdc },
             T.send destChainSelector (σ.buildMessage destChainSelector amount data))

/-- `CCIPBridge.ccipReceive`.  The source marks the message processed and
then reads `message.destTokenAmounts[0]` for the `BridgeReceived` event;
when that access is out of bounds the whole call reverts, which also
rolls the processed-set write back — hence the error branch here returns
`Panic` and, by the `Except` convention, no state change survives. -/
def BridgeState.ccipReceive (σ : BridgeState) (caller : Nat) (m : Any2EVMMessage) :
    Except Err BridgeState :=
  if ¬ (caller = σ.ccipRouter) then .error .OnlyRouter
  else if σ.processedMessages m.messageId then .error .MessageAlreadyProcessed
  else
    match m.destTokenAmounts.head? with
    | none => .error .Panic
    | some ta =>
      .ok { σ with
            processedMessages := fupd σ.processedMessages m.messageId true
          , receivedLog := (m.messageId, m.sourceChainSelector, ta.amount) :: σ.receivedLog }

/-- Fold an at-least-once delivery sequence through `ccipReceive`;
a reverted delivery leaves the state unchanged. -/
def deliverAll (σ : BridgeState) : List (Nat × Any2EVMMessage) → BridgeState
  | [] => σ
  | d :: rest =>
    match σ.ccipReceive d.1 d.2 with
    | .ok σ' => deliverAll σ' rest
    | .error _ => deliverAll σ rest

/-- Number of `BridgeReceived` log entries carrying a given message id. -/
def countId (mid : Nat) (log : List (Nat × Nat × Nat)) : Nat :=
  log.countP fun e => decide (e.1 = mid)

/-- The replay-protection invariant of the bridge: every logged inbound
message id is in the processed set, and no id is logged twice. -/
def BridgeInv (σ : BridgeState) : Prop :=
  (∀ e ∈ σ.receivedLog, σ.processedMessages e.1 = true) ∧
  (∀ mid, countId mid σ.receivedLog ≤ 1)

/-- `YieldPilotRouter.Protocol`. -/
inductive Protocol where
  | AAVE_V3
  | COMPOUND_V3
  deriving DecidableEq

/-- `YieldPilotRouter.ProtocolConfig`. -/
structure ProtocolConfig where
  pool : Nat
  active : Bool
  deriving DecidableEq

/-- A dispatch event of the router: `FundsDeployed` from
`deployToProtocol` or `BridgeInitiated` from `bridgeFunds`. -/
inductive Dispatch where
  | FundsDeployed (user : Nat) (protocol : Protocol) (amount : Nat)
  | BridgeInitiated (user : Nat) (destChainSelector amount : Nat)
  deriving DecidableEq

/-- Storage of one `YieldPilotRouter` instance plus the ordered list of
dispatch events it has emitted (oldest first). -/
structure RouterState where
  routerAddr : Nat
  owner : Nat
  bridge : Nat
  protocols : Protocol → ProtocolConfig
  userDeposits : Nat → Protocol → Nat
  events : List Dispatch

/-- The combined world for router operations: the vault (which owns the
shared USDC token state) together with the router. -/
structure World where
  vault : VaultState
  router : RouterState

/-- `YieldPilotRouter.deployToProtocol`.  The adapter `supply` operation pulls
`amount` of USDC from the router into the configured pool using the
unlimited allowance granted at configuration time. -/
def World.deployToProtocol (w : World) (caller user : Nat) (protocol : Protocol)
    (amount : Nat) : Except Err World :=
  if ¬ (caller = w.vault.vaultAddr ∨ caller = w.router.owner) then
    .error .OnlyVaultOrOwner
  else if (w.router.protocols protocol).active = false then .error .ProtocolNotActive
  else if w.vault.usdc.bal w.router.routerAddr < amount then .error .InsufficientFunds
  else
    .ok { w with
          vault := { w.vault with
            usdc := w.vault.usdc.move w.router.routerAddr
              (w.router.protocols protocol).pool amount }
        , router := { w.router with
              userDeposits := fupd w.router.userDeposits user
                (fupd (w.router.userDeposits user) protocol
                  (w.router.userDeposits user protocol + amount))
            , events := w.router.events ++ [.FundsDeployed user protocol amount] } }

/-- `YieldPilotRouter.bridgeFunds`. -/
def World.bridgeFunds (w : World) (caller user destChainSelector amount : Nat) :
    Except Err World :=
  if ¬ (caller = w.vault.vaultAddr ∨ caller = w.router.owner) then
    .error .OnlyVaultOrOwner
  else if w.vault.usdc.bal w.router.routerAddr < amount then .error .InsufficientFunds
  else
    .ok { w with
          vault := { w.vault with
            usdc := w.vault.usdc.move w.router.routerAddr w.router.bridge amount }
        , router := { w.router with
            events := w.router.events ++ [.BridgeInitiated user destChainSelector amount] } }

/-- The allocation loop of `YieldPilotRouter.executeFullStrategy`.
`caller` stays the original external caller: Solidity runs the
`onlyVaultOrOwner` modifier of the two public helpers on these internal
calls with the outer `msg.sender`. -/
def World.execAllocs (w : World) (caller user : Nat) :
    List Allocation → Except Err World
  | [] => .ok w
  | alloc :: rest =>
    if alloc.chainSelector = 0 then
      if (w.router.protocols Protocol.AAVE_V3).pool = alloc.protocol then
        match w.deployToProtocol caller user Protocol.AAVE_V3 alloc.amount with
        | .error e => .error e
        | .ok w' => w'.execAllocs caller user rest
      else if (w.router.protocols Protocol.COMPOUND_V3).pool = alloc.protocol then
        match w.deployToProtocol caller user Protocol.COMPOUND_V3 alloc.amount with
        | .error e => .error e
        | .ok w' => w'.execAllocs caller user rest
      else
        w.execAllocs caller user rest
    else
      match w.bridgeFunds caller user alloc.chainSelector alloc.amount with
      | .error e => .error e
      | .ok w' => w'.execAllocs caller user rest

/-- `YieldPilotRouter.executeFullStrategy`.  The strategy record and its
allocations are read before `vault.executeStrategy` runs; that vault
call is an external call, so its `msg.sender` is the address of the router. -/
def World.executeFullStrategy (w : World) (caller sid : Nat) : Except Err World :=
  if ¬ (caller = w.router.owner) then .error .OnlyOwner
  else
    match w.vault.executeStrategy w.router.routerAddr sid with
    | .error e => .error e
    | .ok v' =>
      World.execAllocs { w with vault := v' } caller
        (w.vault.strategies sid).user (w.vault.strategies sid).allocations

/-- Specification-side dispatch plan: what the allocation loop emits on
success, computed from the protocol configuration of the router.  A local
allocation whose protocol address matches neither configured pool
contributes nothing. -/
def plannedDispatches (protocols : Protocol → ProtocolConfig) (user : Nat) :
    List Allocation → List Dispatch
  | [] => []
  | alloc :: rest =>
    if alloc.chainSelector = 0 then
      if (protocols Protocol.AAVE_V3).pool = alloc.protocol then
        .FundsDeployed user Protocol.AAVE_V3 alloc.amount ::
          plannedDispatches protocols user rest
      else if (protocols Protocol.COMPOUND_V3).pool = alloc.protocol then
        .FundsDeployed user Protocol.COMPOUND_V3 alloc.amount ::
          plannedDispatches protocols user rest
      else plannedDispatches protocols user rest
    else
      .BridgeInitiated user alloc.chainSelector alloc.amount ::
        plannedDispatches protocols user rest

/-- Whether an `Except` computation succeeded. -/
def isOkE {α : Type} : Except Err α → Bool
  | .ok _ => true
  | .error _ => false

/-- The structural well-formedness of vault storage that every state
reachable from the constructor satisfies: ids start at 1 and every slot
at or above `nextStrategyId` is still unset. -/
def VaultInv (σ : VaultState) : Prop :=
  1 ≤ σ.nextStrategyId ∧ ∀ sid, σ.nextStrategyId ≤ sid → σ.strategies sid = Strategy.unset

/-- The dispatch-event list of a router call result (empty on revert). -/
def eventsOfW : Except Err World → List Dispatch
  | .ok w => w.router.events
  | .error _ => []

/-- A concrete USDC state: the vault (address 2) holds 10 units. -/
def demoUsdc : ERC20 :=
  ⟨fun a => if a = 2 then 10 else 0, fun _ _ => 0⟩

/-- A concrete vault: owner 1, router 3, bridge 4, user 100 holding
balance 10, and one proposed (not yet approved) strategy with a single
local allocation towards protocol address 55. -/
def demoVault : VaultState :=
  { vaultAddr := 2
  , owner := 1
  , router := 3
  , bridge := 4
  , time := 0
  , nextStrategyId := 2
  , strategies := fun sid =>
      if sid = 1 then ⟨1, 100, [⟨0, 55, 9, 10, 0⟩], 10, 0, false, false⟩
      else Strategy.unset
  , positions := fun a => if a = 100 then ⟨10, 0⟩ else ⟨0, 0⟩
  , balances := fun a => if a = 100 then 10 else 0
  , usdc := demoUsdc }

/-- `demoVault` with strategy 1 already approved. -/
def demoVaultA : VaultState :=
  { demoVault with
    strategies := fun sid =>
      if sid = 1 then ⟨1, 100, [⟨0, 55, 9, 10, 0⟩], 10, 0, false, true⟩
      else Strategy.unset }

/-- A concrete router at address 3, owned by 1, with the Aave adapter at
pool 20 and the Compound adapter at pool 21, both active. -/
def demoRouter : RouterState :=
  { routerAddr := 3
  , owner := 1
  , bridge := 4
  , protocols := fun p =>
      match p with
      | .AAVE_V3 => ⟨20, true⟩
      | .COMPOUND_V3 => ⟨21, true⟩
  , userDeposits := fun _ _ => 0
  , events := [] }

/-- The combined world of `demoVaultA` and `demoRouter`: the only
allocation of the approved strategy is local and names protocol address
55, which matches neither configured pool (20 and 21). -/
def demoWorld : World :=
  { vault := demoVaultA, router := demoRouter }

/-- A concrete bridge at address 5 owned by 1 with CCIP router identity
6: chain 10 is allowed with receiver 11, chain 12 is allowed with no
receiver, message id 77 has been processed and logged, the caller at
address 9 holds 100 USDC with a 100-unit allowance to the bridge, and
the bridge holds 3 LINK. -/
def demoBridge : BridgeState :=
  { bridgeAddr := 5
  , owner := 1
  , ccipRouter := 6
  , usdcAddr := 7
  , linkAddr := 8
  , usdc := ⟨fun a => if a = 9 then 100 else 0
           , fun o s => if o = 9 ∧ s = 5 then 100 else 0⟩
  , link := ⟨fun a => if a = 5 then 3 else 0, fun _ _ => 0⟩
  , destinationReceivers := fun c => if c = 10 then 11 else 0
  , allowedChains := fun c => decide (c = 10 ∨ c = 12)
  , processedMessages := fun m => decide (m = 77)
  , receivedLog := [(77, 10, 5)] }

/-- A concrete transport quoting a flat fee of 4 and issuing message id
123. -/
def demoTransport : Transport :=
  ⟨fun _ _ => 4, fun _ _ => 123⟩

/-! Helper lemmas -/

theorem fupd_same {α β : Type} [DecidableEq α] (f : α → β) (a : α) (v : β) :
    fupd f a v a = v := by
  simp [fupd]

theorem fupd_ne {α β : Type} [DecidableEq α] (f : α → β) (a : α) (v : β)
    (x : α) (h : x ≠ a) : fupd f a v x = f x := by
  simp [fupd, h]

theorem fupd_idem {α β : Type} [DecidableEq α] (f : α → β) (a : α) (v : β) :
    fupd (fupd f a v) a v = fupd f a v := by
  funext x
  by_cases h : x = a <;> simp [fupd, h]

theorem deposit_ok (σ σ' : VaultState) (c a : Nat) (h : σ.deposit c a = .ok σ') :
    σ'.nextStrategyId = σ.nextStrategyId ∧ σ'.strategies = σ.strategies := by
  unfold VaultState.deposit at h
  split at h
  · simp at h
  · split at h
    · simp at h
    · cases h
      exact ⟨rfl, rfl⟩

theorem withdraw_ok (σ σ' : VaultState) (c a : Nat) (h : σ.withdraw c a = .ok σ') :
    σ'.nextStrategyId = σ.nextStrategyId ∧ σ'.strategies = σ.strategies := by
  unfold VaultState.withdraw at h
  split at h
  · simp at h
  · split at h
    · simp at h
    · split at h
      · simp at h
      · split at h
        · simp at h
        · cases h
          exact ⟨rfl, rfl⟩

theorem returnFunds_ok (σ σ' : VaultState) (c u a : Nat)
    (h : σ.returnFunds c u a = .ok σ') :
    σ'.nextStrategyId = σ.nextStrategyId ∧ σ'.strategies = σ.strategies := by
  unfold VaultState.returnFunds at h
  split at h
  · simp at h
  · split at h
    · simp at h
    · cases h
      exact ⟨rfl, rfl⟩

theorem setRouter_ok (σ σ' : VaultState) (c rr : Nat)
    (h : σ.setRouter c rr = .ok σ') :
    σ'.nextStrategyId = σ.nextStrategyId ∧ σ'.strategies = σ.strategies := by
  unfold VaultState.setRouter at h
  split at h
  · simp at h
  · cases h
    exact ⟨rfl, rfl⟩

theorem setBridge_ok (σ σ' : VaultState) (c b : Nat)
    (h : σ.setBridge c b = .ok σ') :
    σ'.nextStrategyId = σ.nextStrategyId ∧ σ'.strategies = σ.strategies := by
  unfold VaultState.setBridge at h
  split at h
  · simp at h
  · cases h
    exact ⟨rfl, rfl⟩

theorem propose_ok (σ σ' : VaultState) (c u : Nat) (al : List Allocation)
    (t sid : Nat) (h : σ.proposeStrategy c u al t = .ok (σ', sid)) :
    sid = σ.nextStrategyId ∧ σ'.nextStrategyId = σ.nextStrategyId + 1 ∧
    σ'.strategies = fupd σ.strategies σ.nextStrategyId
      ⟨σ.nextStrategyId, u, al, t, σ.time, false, false⟩ := by
  unfold VaultState.proposeStrategy at h
  split at h
  · simp at h
  · split at h
    · simp at h
    · cases h
      exact ⟨rfl, rfl, rfl⟩

theorem approve_ok (σ σ' : VaultState) (c sid : Nat)
    (h : σ.approveStrategy c sid = .ok σ') :
    (σ.strategies sid).id ≠ 0 ∧ (σ.strategies sid).executed = false ∧
    σ'.nextStrategyId = σ.nextStrategyId ∧
    σ'.strategies = fupd σ.strategies sid { σ.strategies sid with approved := true } := by
  unfold VaultState.approveStrategy at h
  split at h
  · simp at h
  · split at h
    · simp at h
    · split at h
      · simp at h
      · cases h
        refine ⟨by assumption, by simp_all, rfl, rfl⟩

theorem execute_ok (σ σ' : VaultState) (c sid : Nat)
    (h : σ.executeStrategy c sid = .ok σ') :
    (σ.strategies sid).id ≠ 0 ∧ (σ.strategies sid).executed = false ∧
    (σ.strategies sid).approved = true ∧
    σ'.nextStrategyId = σ.nextStrategyId ∧
    σ'.strategies = fupd σ.strategies sid { σ.strategies sid with executed := true } := by
  unfold VaultState.executeStrategy at h
  split at h
  · simp at h
  · split at h
    · simp at h
    · split at h
      · simp at h
      · split at h
        · simp at h
        · split at h
          · simp at h
          · split at h
            · simp at h
            · cases h
              refine ⟨by assumption, by simp_all, by simp_all, rfl, rfl⟩

/-- How one successful vault call can touch the strategy table and the
id counter: either it leaves both alone, or it is a successful
`proposeStrategy` writing a fresh unapproved, unexecuted record at
`nextStrategyId`, or it is a successful `approveStrategy` /
`executeStrategy` flipping exactly one flag of an existing, not yet
executed record to `true`. -/
theorem vstep_cases (σ σ' : VaultState) (op : VOp) (r : Option Nat)
    (h : vstep σ op = .ok (σ', r)) :
    (r = none ∧ σ'.nextStrategyId = σ.nextStrategyId ∧ σ'.strategies = σ.strategies) ∨
    (r = some σ.nextStrategyId ∧ σ'.nextStrategyId = σ.nextStrategyId + 1 ∧
      ∃ u al tot, σ'.strategies = fupd σ.strategies σ.nextStrategyId
        ⟨σ.nextStrategyId, u, al, tot, σ.time, false, false⟩) ∨
    (r = none ∧ σ'.nextStrategyId = σ.nextStrategyId ∧
      ∃ sid, (σ.strategies sid).id ≠ 0 ∧ (σ.strategies sid).executed = false ∧
        σ'.strategies = fupd σ.strategies sid { σ.strategies sid with approved := true }) ∨
    (r = none ∧ σ'.nextStrategyId = σ.nextStrategyId ∧
      ∃ sid, (σ.strategies sid).id ≠ 0 ∧ (σ.strategies sid).executed = false ∧
        (σ.strategies sid).approved = true ∧
        σ'.strategies = fupd σ.strategies sid { σ.strategies sid with executed := true }) := by
  cases op with
  | depositOp c a =>
    simp only [vstep] at h
    cases hd : σ.deposit c a with
    | error e => rw [hd] at h; simp [Except.map] at h
    | ok σd =>
      rw [hd] at h
      simp only [Except.map, Except.ok.injEq, Prod.mk.injEq] at h
      obtain ⟨h1, h2⟩ := h
      subst h1
      obtain ⟨hn, hs⟩ := deposit_ok σ σd c a hd
      exact Or.inl ⟨h2.symm, hn, hs⟩
  | withdrawOp c a =>
    simp only [vstep] at h
    cases hd : σ.withdraw c a with
    | error e => rw [hd] at h; simp [Except.map] at h
    | ok σd =>
      rw [hd] at h
      simp only [Except.map, Except.ok.injEq, Prod.mk.injEq] at h
      obtain ⟨h1, h2⟩ := h
      subst h1
      obtain ⟨hn, hs⟩ := withdraw_ok σ σd c a hd
      exact Or.inl ⟨h2.symm, hn, hs⟩
  | proposeOp c u al t =>
    simp only [vstep] at h
    cases hd : σ.proposeStrategy c u al t with
    | error e => rw [hd] at h; simp [Except.map] at h
    | ok p =>
      obtain ⟨σd, sid⟩ := p
      rw [hd] at h
      simp only [Except.map, Except.ok.injEq, Prod.mk.injEq] at h
      obtain ⟨h1, h2⟩ := h
      subst h1
      obtain ⟨hid, hn, hs⟩ := propose_ok σ σd c u al t sid hd
      subst hid
      exact Or.inr (Or.inl ⟨h2.symm, hn, u, al, t, hs⟩)
  | approveOp c sid =>
    simp only [vstep] at h
    cases hd : σ.approveStrategy c sid with
    | error e => rw [hd] at h; simp [Except.map] at h
    | ok σd =>
      rw [hd] at h
      simp only [Except.map, Except.ok.injEq, Prod.mk.injEq] at h
      obtain ⟨h1, h2⟩ := h
      subst h1
      obtain ⟨hid, hex, hn, hs⟩ := approve_ok σ σd c sid hd
      exact Or.inr (Or.inr (Or.inl ⟨h2.symm, hn, sid, hid, hex, hs⟩))
  | executeOp c sid =>
    simp only [vstep] at h
    cases hd : σ.executeStrategy c sid with
    | error e => rw [hd] at h; simp [Except.map] at h
    | ok σd =>
      rw [hd] at h
      simp only [Except.map, Except.ok.injEq, Prod.mk.injEq] at h
      obtain ⟨h1, h2⟩ := h
      subst h1
      obtain ⟨hid, hex, hap, hn, hs⟩ := execute_ok σ σd c sid hd
      exact Or.inr (Or.inr (Or.inr ⟨h2.symm, hn, sid, hid, hex, hap, hs⟩))
  | returnFundsOp c u a =>
    simp only [vstep] at h
    cases hd : σ.returnFunds c u a with
    | error e => rw [hd] at h; simp [Except.map] at h
    | ok σd =>
      rw [hd] at h
      simp only [Except.map, Except.ok.injEq, Prod.mk.injEq] at h
      obtain ⟨h1, h2⟩ := h
      subst h1
      obtain ⟨hn, hs⟩ := returnFunds_ok σ σd c u a hd
      exact Or.inl ⟨h2.symm, hn, hs⟩
  | setRouterOp c rr =>
    simp only [vstep] at h
    cases hd : σ.setRouter c rr with
    | error e => rw [hd] at h; simp [Except.map] at h
    | ok σd =>
      rw [hd] at h
      simp only [Except.map, Except.ok.injEq, Prod.mk.injEq] at h
      obtain ⟨h1, h2⟩ := h
      subst h1
      obtain ⟨hn, hs⟩ := setRouter_ok σ σd c rr hd
      exact Or.inl ⟨h2.symm, hn, hs⟩
  | setBridgeOp c b =>
    simp only [vstep] at h
    cases hd : σ.setBridge c b with
    | error e => rw [hd] at h; simp [Except.map] at h
    | ok σd =>
      rw [hd] at h
      simp only [Except.map, Except.ok.injEq, Prod.mk.injEq] at h
      obtain ⟨h1, h2⟩ := h
      subst h1
      obtain ⟨hn, hs⟩ := setBridge_ok σ σd c b hd
      exact Or.inl ⟨h2.symm, hn, hs⟩

theorem init_inv (deployer vaultAddr time : Nat) (usdc : ERC20) :
    VaultInv (VaultState.init deployer vaultAddr time usdc) := by
  exact ⟨le_refl 1, fun _ _ => rfl⟩

theorem applyOp_inv (σ : VaultState) (op : VOp) (h : VaultInv σ) :
    VaultInv (applyOp σ op) := by
  unfold applyOp
  cases hstep : vstep σ op with
  | error e => exact h
  | ok p =>
    obtain ⟨σ', r⟩ := p
    obtain ⟨h1, h2⟩ := h
    show VaultInv σ'
    rcases vstep_cases σ σ' op r hstep with
      ⟨-, hn, hs⟩ | ⟨-, hn, u, al, t, hs⟩ | ⟨-, hn, sid, hid, -, hs⟩ |
      ⟨-, hn, sid, hid, -, -, hs⟩
    · refine ⟨by omega, fun s hle => ?_⟩
      rw [hn] at hle
      rw [hs]
      exact h2 s hle
    · refine ⟨by omega, fun s hle => ?_⟩
      rw [hn] at hle
      rw [hs, fupd_ne]
      · exact h2 s (by omega)
      · omega
    · refine ⟨by omega, fun s hle => ?_⟩
      rw [hn] at hle
      by_cases hss : s = sid
      · exfalso
        subst hss
        rw [h2 s hle] at hid
        exact hid rfl
      · rw [hs, fupd_ne _ _ _ _ hss]
        exact h2 s hle
    · refine ⟨by omega, fun s hle => ?_⟩
      rw [hn] at hle
      by_cases hss : s = sid
      · exfalso
        subst hss
        rw [h2 s hle] at hid
        exact hid rfl
      · rw [hs, fupd_ne _ _ _ _ hss]
        exact h2 s hle

theorem applyOp_mono (σ : VaultState) (op : VOp) (sid : Nat) (h : VaultInv σ) :
    ((σ.strategies sid).approved = true → ((applyOp σ op).strategies sid).approved = true) ∧
    ((σ.strategies sid).executed = true → ((applyOp σ op).strategies sid).executed = true) ∧
    ((σ.strategies sid).executed = true → (applyOp σ op).strategies sid = σ.strategies sid) := by
  unfold applyOp
  cases hstep : vstep σ op with
  | error e => exact ⟨id, id, fun _ => rfl⟩
  | ok p =>
    obtain ⟨σ', r⟩ := p
    obtain ⟨-, h2⟩ := h
    show ((σ.strategies sid).approved = true → (σ'.strategies sid).approved = true) ∧
      ((σ.strategies sid).executed = true → (σ'.strategies sid).executed = true) ∧
      ((σ.strategies sid).executed = true → σ'.strategies sid = σ.strategies sid)
    rcases vstep_cases σ σ' op r hstep with
      ⟨-, -, hs⟩ | ⟨-, -, u, al, t, hs⟩ | ⟨-, -, sid0, -, hex0, hs⟩ |
      ⟨-, -, sid0, -, hex0, -, hs⟩
    · rw [hs]
      exact ⟨id, id, fun _ => rfl⟩
    · rw [hs]
      by_cases hss : sid = σ.nextStrategyId
      · rw [hss, h2 σ.nextStrategyId le_rfl, fupd_same]
        simp [Strategy.unset]
      · rw [fupd_ne _ _ _ _ hss]
        exact ⟨id, id, fun _ => rfl⟩
    · rw [hs]
      by_cases hss : sid = sid0
      · rw [hss, fupd_same]
        refine ⟨fun _ => rfl, fun hx => hx, fun hx => ?_⟩
        simp [hx] at hex0
      · rw [fupd_ne _ _ _ _ hss]
        exact ⟨id, id, fun _ => rfl⟩
    · rw [hs]
      by_cases hss : sid = sid0
      · rw [hss, fupd_same]
        refine ⟨fun hx => hx, fun _ => rfl, fun hx => ?_⟩
        simp [hx] at hex0
      · rw [fupd_ne _ _ _ _ hss]
        exact ⟨id, id, fun _ => rfl⟩

theorem executeStrategy_not_approved (σ : VaultState) (caller sid : Nat)
    (hauth : caller = σ.router ∨ caller = σ.owner)
    (hid : ¬ ((σ.strategies sid).id = 0))
    (hap : (σ.strategies sid).approved = false) :
    σ.executeStrategy caller sid = .error .StrategyNotApproved := by
  unfold VaultState.executeStrategy
  rw [if_neg (not_not_intro hauth), if_neg hid, if_pos hap]

theorem executeStrategy_not_approved_not_ok (σ : VaultState) (caller sid : Nat)
    (hap : (σ.strategies sid).approved = false) :
    isOkE (σ.executeStrategy caller sid) = false := by
  unfold VaultState.executeStrategy
  by_cases hauth : caller = σ.router ∨ caller = σ.owner
  · rw [if_neg (not_not_intro hauth)]
    by_cases hid : (σ.strategies sid).id = 0
    · rw [if_pos hid]
      rfl
    · rw [if_neg hid, if_pos hap]
      rfl
  · rw [if_pos hauth]
    rfl

theorem runCollect_chain (ops : List VOp) (σ : VaultState) :
    List.Chain' (· < ·) (runCollect σ ops) ∧
    (∀ j, (runCollect σ ops).head? = some j → j = σ.nextStrategyId) := by
  induction ops generalizing σ with
  | nil => simp [runCollect]
  | cons op rest ih =>
    unfold runCollect
    cases hstep : vstep σ op with
    | error e => exact ih σ
    | ok p =>
      obtain ⟨σ', r⟩ := p
      rcases vstep_cases σ σ' op r hstep with
        ⟨hr, hn, -⟩ | ⟨hr, hn, -⟩ | ⟨hr, hn, -⟩ | ⟨hr, hn, -⟩
      · subst hr
        obtain ⟨ihc, ihh⟩ := ih σ'
        exact ⟨ihc, fun j hj => (ihh j hj).trans hn⟩
      · subst hr
        obtain ⟨ihc, ihh⟩ := ih σ'
        refine ⟨List.chain'_cons'.2 ⟨fun j hj => ?_, ihc⟩, fun j hj => ?_⟩
        · have := ihh j hj
          omega
        · simp at hj
          omega
      · subst hr
        obtain ⟨ihc, ihh⟩ := ih σ'
        exact ⟨ihc, fun j hj => (ihh j hj).trans hn⟩
      · subst hr
        obtain ⟨ihc, ihh⟩ := ih σ'
        exact ⟨ihc, fun j hj => (ihh j hj).trans hn⟩

theorem ccipReceive_ok (σ σ' : BridgeState) (c : Nat) (m : Any2EVMMessage)
    (h : σ.ccipReceive c m = .ok σ') :
    σ.processedMessages m.messageId = false ∧
    ∃ ta, m.destTokenAmounts.head? = some ta ∧
      σ'.processedMessages = fupd σ.processedMessages m.messageId true ∧
      σ'.receivedLog = (m.messageId, m.sourceChainSelector, ta.amount) :: σ.receivedLog := by
  unfold BridgeState.ccipReceive at h
  split at h
  · simp at h
  · split at h
    · simp at h
    · rename_i hproc
      split at h
      · simp at h
      · rename_i ta hta
        cases h
        exact ⟨by simp_all, ta, hta, rfl, rfl⟩

theorem deliver_inv (σ : BridgeState) (c : Nat) (m : Any2EVMMessage) (h : BridgeInv σ) :
    BridgeInv (match σ.ccipReceive c m with | .ok σ' => σ' | .error _ => σ) := by
  cases hr : σ.ccipReceive c m with
  | error e => exact h
  | ok σ' =>
    obtain ⟨h1, h2⟩ := h
    obtain ⟨hp, ta, hta, hpm, hlog⟩ := ccipReceive_ok σ σ' c m hr
    show BridgeInv σ'
    constructor
    · intro e he
      rw [hlog] at he
      rw [hpm]
      rcases List.mem_cons.1 he with he | he
      · rw [he]
        exact fupd_same _ _ _
      · by_cases hem : e.1 = m.messageId
        · rw [hem]
          exact fupd_same _ _ _
        · rw [fupd_ne _ _ _ _ hem]
          exact h1 e he
    · intro mid
      rw [hlog, countId, List.countP_cons]
      by_cases hm : m.messageId = mid
      · have hzero : countId mid σ.receivedLog = 0 := by
          rw [countId, List.countP_eq_zero]
          intro e he
          simp only [decide_eq_true_eq]
          intro hem
          have hone := h1 e he
          rw [hem, ← hm] at hone
          rw [hone] at hp
          cases hp
        rw [countId] at hzero
        simp [hzero, hm]
      · have hdec : decide (m.messageId = mid) = false := by
          simp [hm]
        have hcnt := h2 mid
        rw [countId] at hcnt
        simpa [hdec] using hcnt

theorem deliverAll_inv (ds : List (Nat × Any2EVMMessage)) (σ : BridgeState)
    (h : BridgeInv σ) : BridgeInv (deliverAll σ ds) := by
  induction ds generalizing σ with
  | nil => exact h
  | cons d rest ih =>
    unfold deliverAll
    cases hr : σ.ccipReceive d.1 d.2 with
    | error e => exact ih σ h
    | ok σ' =>
      show BridgeInv (deliverAll σ' rest)
      apply ih
      have hstep := deliver_inv σ d.1 d.2 h
      rw [hr] at hstep
      exact hstep

theorem deployToProtocol_ok (w w' : World) (c u : Nat) (p : Protocol) (a : Nat)
    (h : w.deployToProtocol c u p a = .ok w') :
    w'.router.protocols = w.router.protocols ∧
    w'.router.events = w.router.events ++ [.FundsDeployed u p a] := by
  unfold World.deployToProtocol at h
  split at h
  · simp at h
  · split at h
    · simp at h
    · split at h
      · simp at h
      · cases h
        exact ⟨rfl, rfl⟩

theorem bridgeFunds_ok (w w' : World) (c u d a : Nat)
    (h : w.bridgeFunds c u d a = .ok w') :
    w'.router.protocols = w.router.protocols ∧
    w'.router.events = w.router.events ++ [.BridgeInitiated u d a] := by
  unfold World.bridgeFunds at h
  split at h
  · simp at h
  · split at h
    · simp at h
    · cases h
      exact ⟨rfl, rfl⟩

theorem execAllocs_events (allocs : List Allocation) (w w' : World) (c u : Nat)
    (h : World.execAllocs w c u allocs = .ok w') :
    w'.router.events = w.router.events ++
      plannedDispatches w.router.protocols u allocs := by
  induction allocs generalizing w with
  | nil =>
    unfold World.execAllocs at h
    cases h
    simp [plannedDispatches]
  | cons alloc rest ih =>
    unfold World.execAllocs at h
    by_cases h0 : alloc.chainSelector = 0
    · rw [if_pos h0] at h
      by_cases hA : (w.router.protocols Protocol.AAVE_V3).pool = alloc.protocol
      · rw [if_pos hA] at h
        cases hd : w.deployToProtocol c u Protocol.AAVE_V3 alloc.amount with
        | error e =>
          rw [hd] at h
          simp at h
        | ok w1 =>
          rw [hd] at h
          obtain ⟨hp, he⟩ := deployToProtocol_ok w w1 c u _ _ hd
          rw [ih w1 h, he, hp, plannedDispatches, if_pos h0, if_pos hA]
          simp
      · rw [if_neg hA] at h
        by_cases hC : (w.router.protocols Protocol.COMPOUND_V3).pool = alloc.protocol
        · rw [if_pos hC] at h
          cases hd : w.deployToProtocol c u Protocol.COMPOUND_V3 alloc.amount with
          | error e =>
            rw [hd] at h
            simp at h
          | ok w1 =>
            rw [hd] at h
            obtain ⟨hp, he⟩ := deployToProtocol_ok w w1 c u _ _ hd
            rw [ih w1 h, he, hp, plannedDispatches, if_pos h0, if_neg hA, if_pos hC]
            simp
        · rw [if_neg hC] at h
          rw [ih w h, plannedDispatches, if_pos h0, if_neg hA, if_neg hC]
    · rw [if_neg h0] at h
      cases hd : w.bridgeFunds c u alloc.chainSelector alloc.amount with
      | error e =>
        rw [hd] at h
        simp at h
      | ok w1 =>
        rw [hd] at h
        obtain ⟨hp, he⟩ := bridgeFunds_ok w w1 c u _ _ hd
        rw [ih w1 h, he, hp, plannedDispatches, if_neg h0]
        simp

theorem executeStrategy_already (σ : VaultState) (caller sid : Nat)
    (hauth : caller = σ.router ∨ caller = σ.owner)
    (hid : ¬ ((σ.strategies sid).id = 0))
    (hap : ¬ ((σ.strategies sid).approved = false))
    (hex : (σ.strategies sid).executed = true) :
    σ.executeStrategy caller sid = .error .StrategyAlreadyExecuted := by
  unfold VaultState.executeStrategy
  rw [if_neg (not_not_intro hauth), if_neg hid, if_neg hap, if_pos hex]

theorem executeStrategy_executed_not_ok (σ : VaultState) (caller sid : Nat)
    (hex : (σ.strategies sid).executed = true) :
    isOkE (σ.executeStrategy caller sid) = false := by
  unfold VaultState.executeStrategy
  by_cases hauth : caller = σ.router ∨ caller = σ.owner
  · rw [if_neg (not_not_intro hauth)]
    by_cases hid : (σ.strategies sid).id = 0
    · rw [if_pos hid]
      rfl
    · rw [if_neg hid]
      by_cases hap : (σ.strategies sid).approved = false
      · rw [if_pos hap]
        rfl
      · rw [if_neg hap, if_pos hex]
        rfl
  · rw [if_pos hauth]
    rfl

theorem pow_band_lower (d : Nat) : 10 ^ d * 99 / 100 < 10 ^ d := by
  rw [Nat.div_lt_iff_lt_mul (by norm_num : (0:Nat) < 100)]
  have hpos : 0 < (10:Nat) ^ d := pow_pos (by norm_num) d
  nlinarith

theorem pow_band_upper (d : Nat) (hd : 2 ≤ d) : 10 ^ d < 10 ^ d * 101 / 100 := by
  obtain ⟨k, rfl⟩ : ∃ k, d = k + 2 := ⟨d - 2, by omega⟩
  have hsplit : (10:Nat) ^ (k + 2) = 10 ^ k * 100 := by
    rw [pow_add]
    norm_num
  rw [hsplit]
  have hdiv : (10:Nat) ^ k * 100 * 101 / 100 = 10 ^ k * 101 := by
    rw [show (10:Nat) ^ k * 100 * 101 = 10 ^ k * 101 * 100 by ring]
    exact Nat.mul_div_cancel _ (by norm_num)
  rw [hdiv]
  have hpos : 0 < (10:Nat) ^ k := pow_pos (by norm_num) k
  nlinarith

theorem pow_band_low90 (d : Nat) (hd : 1 ≤ d) :
    9 * 10 ^ (d - 1) ≤ 10 ^ d * 99 / 100 := by
  obtain ⟨k, rfl⟩ : ∃ k, d = k + 1 := ⟨d - 1, by omega⟩
  have hsplit : (10:Nat) ^ (k + 1) = 10 ^ k * 10 := by
    rw [pow_add]
    norm_num
  rw [hsplit, Nat.le_div_iff_mul_le (by norm_num : (0:Nat) < 100)]
  have hk : k + 1 - 1 = k := by omega
  rw [hk]
  nlinarith [pow_pos (show (0:Nat) < 10 by norm_num) k]

/-! Claim theorems -/

/-- C1 counterexample: the claim says `withdraw` fails with
`InsufficientBalance` exactly when the available balance is below the
amount and succeeds in every other case; but at `amount = 0` (with a
positive balance, so the balance is not below the amount) the source
reverts with `InvalidAmount` instead of succeeding. -/
theorem C1_counterexample :
    demoVault.withdraw 100 0 = .error .InvalidAmount ∧
    ¬ (demoVault.balances 100 < 0) := by
  exact ⟨rfl, by decide⟩

/-- C1 (amended): `withdraw` fails `InvalidAmount` when `amount = 0`;
otherwise it fails `InsufficientBalance` exactly when the caller
available balance is below `amount`; otherwise, provided the tracked cumulative-deposited figure of the
caller and the vault asset holdings cover
`amount` (they do in states reachable without external interference), it
succeeds, debiting the available balance and the deposited tally by
`amount` and releasing the asset to the caller; when the deposited tally
is below `amount` the checked subtraction aborts the call; every failing
`withdraw` leaves all state unchanged. -/
theorem C1_withdraw_characterization (σ : VaultState) (caller amount : Nat) :
    (amount = 0 → σ.withdraw caller amount = .error .InvalidAmount) ∧
    (amount ≠ 0 → σ.balances caller < amount →
      σ.withdraw caller amount = .error .InsufficientBalance) ∧
    (amount ≠ 0 → amount ≤ σ.balances caller →
      (σ.positions caller).deposited < amount →
      σ.withdraw caller amount = .error .Panic) ∧
    (amount ≠ 0 → amount ≤ σ.balances caller →
      amount ≤ (σ.positions caller).deposited →
      amount ≤ σ.usdc.bal σ.vaultAddr →
      ∃ σ', σ.withdraw caller amount = .ok σ' ∧
        σ'.balances caller = σ.balances caller - amount ∧
        (σ'.positions caller).deposited = (σ.positions caller).deposited - amount ∧
        σ'.usdc = σ.usdc.move σ.vaultAddr caller amount ∧
        σ'.strategies = σ.strategies ∧
        σ'.nextStrategyId = σ.nextStrategyId) ∧
    (∀ e, σ.withdraw caller amount = .error e →
      applyOp σ (.withdrawOp caller amount) = σ) := by
  refine ⟨?_, ?_, ?_, ?_, ?_⟩
  · intro h0
    unfold VaultState.withdraw
    rw [if_pos h0]
  · intro h0 hlt
    unfold VaultState.withdraw
    rw [if_neg h0, if_pos hlt]
  · intro h0 hge hdep
    unfold VaultState.withdraw
    rw [if_neg h0, if_neg (by omega), if_pos hdep]
  · intro h0 hge hdep hbal
    unfold VaultState.withdraw
    rw [if_neg h0, if_neg (by omega), if_neg (by omega)]
    unfold ERC20.transfer
    rw [if_neg (by omega)]
    refine ⟨_, rfl, ?_, ?_, rfl, rfl, rfl⟩
    · exact fupd_same _ _ _
    · simp [fupd]
  · intro e herr
    unfold applyOp
    simp only [vstep]
    rw [herr]
    rfl

/-- C1 witness: at a concrete state the successful branch of the amended
characterization is realised. -/
theorem C1_witness :
    ∃ σ', demoVault.withdraw 100 5 = .ok σ' ∧
      σ'.balances 100 = 5 ∧
      (σ'.positions 100).deposited = 5 ∧
      σ'.usdc = demoVault.usdc.move 2 100 5 ∧
      σ'.strategies = demoVault.strategies ∧
      σ'.nextStrategyId = 2 := by
  have h := (C1_withdraw_characterization demoVault 100 5).2.2.2.1
    (by decide) (by decide) (by decide) (by decide)
  exact h

/-- C7: `approveStrategy` is idempotent — on an existing, unexecuted
strategy owned by the caller, the first call succeeds leaving
`approved = true`, and a second call returns exactly the same state with
no error and no further side effect. -/
theorem C7_approve_idempotent (σ : VaultState) (caller sid : Nat)
    (hid : ¬ ((σ.strategies sid).id = 0))
    (huser : (σ.strategies sid).user = caller)
    (hexe : (σ.strategies sid).executed = false) :
    ∃ σ₁, σ.approveStrategy caller sid = .ok σ₁ ∧
      (σ₁.strategies sid).approved = true ∧
      σ₁.approveStrategy caller sid = .ok σ₁ := by
  have hs1 : fupd σ.strategies sid { σ.strategies sid with approved := true } sid
      = { σ.strategies sid with approved := true } := fupd_same _ _ _
  unfold VaultState.approveStrategy
  rw [if_neg hid, if_neg (not_not_intro huser), if_neg (by simp [hexe])]
  refine ⟨_, rfl, ?_, ?_⟩
  · show (fupd σ.strategies sid { σ.strategies sid with approved := true } sid).approved = true
    rw [hs1]
  · show VaultState.approveStrategy _ caller sid = _
    unfold VaultState.approveStrategy
    have h1 : ¬ ((fupd σ.strategies sid { σ.strategies sid with approved := true } sid).id = 0) := by
      rw [hs1]
      exact hid
    have h2 : ¬ ¬ ((fupd σ.strategies sid { σ.strategies sid with approved := true } sid).user = caller) := by
      rw [hs1]
      exact not_not_intro huser
    have h3 : ¬ ((fupd σ.strategies sid { σ.strategies sid with approved := true } sid).executed = true) := by
      rw [hs1]
      simp [hexe]
    rw [if_neg h1, if_neg h2, if_neg h3]
    have hcollapse :
        fupd (fupd σ.strategies sid { σ.strategies sid with approved := true }) sid
          { fupd σ.strategies sid { σ.strategies sid with approved := true } sid with
            approved := true }
        = fupd σ.strategies sid { σ.strategies sid with approved := true } := by
      rw [hs1]
      exact fupd_idem _ _ _
    rw [hcollapse]

/-- C7 witness: the idempotence realised on a concrete vault. -/
theorem C7_witness :
    ∃ σ₁, demoVault.approveStrategy 100 1 = .ok σ₁ ∧
      (σ₁.strategies 1).approved = true ∧
      σ₁.approveStrategy 100 1 = .ok σ₁ :=
  C7_approve_idempotent demoVault 100 1 (by decide) (by decide) (by decide)

/-- C9 counterexample: the claim asserts `validatePeg` returns `true`
for `price = 1.00 * 10 ^ decimals`, for the `decimals` of the oracle; at
`decimals = 1` with a fresh feed the source computes the band
`(10 * 99 / 100, 10 * 101 / 100) = (9, 10)` with integer division, and
`10 < 10` fails, so the exact-peg price `10` yields `false`. -/
theorem C9_counterexample :
    validateUsdcPeg 0 0 (((10 : Nat) ^ 1 : Nat) : Int) 1 = .ok false := rfl

/-- C9 (amended): with a feed not updated in the future, `validatePeg`
fails `StalePriceFeed` exactly when `now - updatedAt` exceeds one hour;
otherwise it returns `true` iff the price lies strictly between
`10 ^ decimals * 99 / 100` and `10 ^ decimals * 101 / 100` (integer
division); in particular it returns `true` for the exact peg
`10 ^ decimals` whenever `decimals ≥ 2`, and `false` for
`0.90 * 10 ^ decimals` whenever `decimals ≥ 1` — but for `decimals ≤ 1`
integer division collapses the band and even the exact peg is
rejected. -/
theorem C9_peg_characterization (now updatedAt : Nat) (price : Int) (decimals : Nat)
    (hle : updatedAt ≤ now) :
    (3600 < now - updatedAt →
      validateUsdcPeg now updatedAt price decimals = .error .StalePriceFeed) ∧
    (now - updatedAt ≤ 3600 →
      validateUsdcPeg now updatedAt price decimals =
        .ok (decide (10 ^ decimals * 99 / 100 < price.toNat) &&
             decide (price.toNat < 10 ^ decimals * 101 / 100))) ∧
    (now - updatedAt ≤ 3600 → 2 ≤ decimals →
      validateUsdcPeg now updatedAt (((10 : Nat) ^ decimals : Nat) : Int) decimals
        = .ok true) ∧
    (now - updatedAt ≤ 3600 → 1 ≤ decimals →
      validateUsdcPeg now updatedAt ((9 * (10 : Nat) ^ (decimals - 1) : Nat) : Int) decimals
        = .ok false) := by
  have hfresh : ∀ (pr : Int), now - updatedAt ≤ 3600 →
      validateUsdcPeg now updatedAt pr decimals =
        .ok (decide (10 ^ decimals * 99 / 100 < pr.toNat) &&
             decide (pr.toNat < 10 ^ decimals * 101 / 100)) := by
    intro pr hfr
    unfold validateUsdcPeg getLatestPrice
    rw [if_pos hle, if_neg (not_lt.2 hfr)]
    show Except.ok
        (decide (10 ^ decimals * 99 / 100 < if 0 < pr then pr.toNat else 0) &&
         decide ((if 0 < pr then pr.toNat else 0) < 10 ^ decimals * 101 / 100)) = _
    have habs : (if 0 < pr then pr.toNat else 0) = pr.toNat := by
      by_cases hp : 0 < pr
      · rw [if_pos hp]
      · rw [if_neg hp, Int.toNat_of_nonpos (by omega)]
    rw [habs]
  refine ⟨?_, fun hfr => hfresh price hfr, ?_, ?_⟩
  · intro hgt
    unfold validateUsdcPeg getLatestPrice
    rw [if_pos hle, if_pos hgt]
  · intro hfr hd
    rw [hfresh _ hfr, Int.toNat_natCast, decide_eq_true (pow_band_lower decimals),
      decide_eq_true (pow_band_upper decimals hd)]
    rfl
  · intro hfr hd
    rw [hfresh _ hfr, Int.toNat_natCast,
      decide_eq_false (not_lt.2 (pow_band_low90 decimals hd))]
    rfl

/-- C9 witness: at eight oracle decimals with a fresh feed the exact peg
is accepted. -/
theorem C9_witness :
    validateUsdcPeg 3600 3600 (((10 : Nat) ^ 8 : Nat) : Int) 8 = .ok true :=
  (C9_peg_characterization 3600 3600 0 8 (by decide)).2.2.1 (by decide) (by decide)

/-- C10: delivering a message with an empty `destTokenAmounts` to a not
yet processed id aborts the call (`destTokenAmounts[0]` is out of
bounds); since the revert rolls back the processed-set write, the same
id delivered later in well-formed shape still succeeds. -/
theorem C10_empty_token_abort (σ : BridgeState) (mid src sender data : Nat)
    (m2 : Any2EVMMessage) (hp : σ.processedMessages mid = false)
    (hm2 : m2.messageId = mid) (hne : m2.destTokenAmounts ≠ []) :
    σ.ccipReceive σ.ccipRouter ⟨mid, src, sender, data, []⟩ = .error .Panic ∧
    isOkE (σ.ccipReceive σ.ccipRouter m2) = true := by
  constructor
  · unfold BridgeState.ccipReceive
    rw [if_neg (not_not_intro rfl), if_neg (by simp [hp])]
    rfl
  · unfold BridgeState.ccipReceive
    rw [if_neg (not_not_intro rfl), if_neg (by rw [hm2]; simp [hp])]
    cases hta : m2.destTokenAmounts with
    | nil => exact absurd hta hne
    | cons ta rest => rfl

/-- C10 witness: the abort and the later successful redelivery realised
on the concrete bridge. -/
theorem C10_witness :
    demoBridge.ccipReceive 6 ⟨78, 10, 0, 0, []⟩ = .error .Panic ∧
    isOkE (demoBridge.ccipReceive 6 ⟨78, 10, 0, 0, [⟨7, 5⟩]⟩) = true :=
  C10_empty_token_abort demoBridge 78 10 0 0 ⟨78, 10, 0, 0, [⟨7, 5⟩]⟩
    (by decide) rfl (by decide)

/-- C3: the `approved` and `executed` flags only ever move from `false`
to `true` across every vault entry point, an executed strategy record is
never mutated again, `executeStrategy` reports `StrategyNotApproved` on
an existing unapproved strategy for an authorized caller, and it can
never succeed while `approved` is `false`; the well-formedness invariant
this rests on holds at the constructor and is preserved by every
operation. -/
theorem C3_strategy_monotone :
    (∀ (deployer vaultAddr time : Nat) (usdc : ERC20),
      VaultInv (VaultState.init deployer vaultAddr time usdc)) ∧
    (∀ (σ : VaultState) (op : VOp), VaultInv σ → VaultInv (applyOp σ op)) ∧
    (∀ (σ : VaultState) (op : VOp) (sid : Nat), VaultInv σ →
      ((σ.strategies sid).approved = true →
        ((applyOp σ op).strategies sid).approved = true) ∧
      ((σ.strategies sid).executed = true →
        ((applyOp σ op).strategies sid).executed = true) ∧
      ((σ.strategies sid).executed = true →
        (applyOp σ op).strategies sid = σ.strategies sid)) ∧
    (∀ (σ : VaultState) (caller sid : Nat), (caller = σ.router ∨ caller = σ.owner) →
      ¬ ((σ.strategies sid).id = 0) → (σ.strategies sid).approved = false →
      σ.executeStrategy caller sid = .error .StrategyNotApproved) ∧
    (∀ (σ : VaultState) (caller sid : Nat), (σ.strategies sid).approved = false →
      isOkE (σ.executeStrategy caller sid) = false) :=
  ⟨init_inv, applyOp_inv, applyOp_mono,
   executeStrategy_not_approved, executeStrategy_not_approved_not_ok⟩

/-- C3 witness: the invariant, flag monotonicity and the
`StrategyNotApproved` failure realised on concrete states. -/
theorem C3_witness :
    VaultInv (VaultState.init 1 2 0 demoUsdc) ∧
    VaultInv (applyOp demoVaultA (.depositOp 100 5)) ∧
    ((applyOp demoVaultA (.withdrawOp 100 5)).strategies 1).approved = true ∧
    demoVault.executeStrategy 3 1 = .error .StrategyNotApproved ∧
    isOkE (demoVault.executeStrategy 7 1) = false := by
  have hInvA : VaultInv demoVaultA := by
    refine ⟨by decide, fun sid hle => ?_⟩
    have hle2 : 2 ≤ sid := hle
    show (if sid = 1 then _ else Strategy.unset) = Strategy.unset
    rw [if_neg (by omega)]
  refine ⟨C3_strategy_monotone.1 1 2 0 demoUsdc,
          C3_strategy_monotone.2.1 demoVaultA (.depositOp 100 5) hInvA,
          (C3_strategy_monotone.2.2.1 demoVaultA (.withdrawOp 100 5) 1 hInvA).1 (by decide),
          C3_strategy_monotone.2.2.2.1 demoVault 3 1 (Or.inl rfl) (by decide) (by decide),
          C3_strategy_monotone.2.2.2.2 demoVault 7 1 (by decide)⟩

/-- C4: on an existing approved, unexecuted strategy and an authorized
caller, `executeStrategy` re-checks the owner balance and fails
`InsufficientBalance` when it no longer covers `totalAmount`; otherwise
it debits the balance, moves `totalAmount` of the asset from the vault
to the router, marks the strategy executed, records it as the owner
active strategy, and afterwards re-running it fails
`StrategyAlreadyExecuted` — indeed no caller can ever execute it
again. -/
theorem C4_execute_exactly_once (σ : VaultState) (caller sid : Nat)
    (hauth : caller = σ.router ∨ caller = σ.owner)
    (hid : ¬ ((σ.strategies sid).id = 0))
    (hap : (σ.strategies sid).approved = true)
    (hexe : (σ.strategies sid).executed = false) :
    (σ.balances (σ.strategies sid).user < (σ.strategies sid).totalAmount →
      σ.executeStrategy caller sid = .error .InsufficientBalance) ∧
    ((σ.strategies sid).totalAmount ≤ σ.balances (σ.strategies sid).user →
     (σ.strategies sid).totalAmount ≤ σ.usdc.bal σ.vaultAddr →
      ∃ σ', σ.executeStrategy caller sid = .ok σ' ∧
        σ'.balances (σ.strategies sid).user =
          σ.balances (σ.strategies sid).user - (σ.strategies sid).totalAmount ∧
        σ'.usdc = σ.usdc.move σ.vaultAddr σ.router (σ.strategies sid).totalAmount ∧
        (σ'.strategies sid).executed = true ∧
        (σ'.positions (σ.strategies sid).user).activeStrategyId = sid ∧
        (σ.vaultAddr ≠ σ.router →
          σ'.usdc.bal σ.router =
            σ.usdc.bal σ.router + (σ.strategies sid).totalAmount) ∧
        σ'.executeStrategy caller sid = .error .StrategyAlreadyExecuted ∧
        (∀ caller2, isOkE (σ'.executeStrategy caller2 sid) = false)) := by
  constructor
  · intro hlt
    unfold VaultState.executeStrategy
    rw [if_neg (not_not_intro hauth), if_neg hid, if_neg (by simp [hap]),
      if_neg (by simp [hexe]), if_pos hlt]
  · intro hbal husdc
    unfold VaultState.executeStrategy
    rw [if_neg (not_not_intro hauth), if_neg hid, if_neg (by simp [hap]),
      if_neg (by simp [hexe]), if_neg (by omega)]
    unfold ERC20.transfer
    rw [if_neg (by omega)]
    refine ⟨_, rfl, ?_, rfl, ?_, ?_, ?_, ?_, ?_⟩
    · exact fupd_same _ _ _
    · show (fupd σ.strategies sid { σ.strategies sid with executed := true } sid).executed = true
      rw [fupd_same]
    · simp [fupd]
    · intro hvr
      simp [ERC20.move, fupd_same, fupd_ne _ _ _ _ (Ne.symm hvr)]
    · apply executeStrategy_already
      · exact hauth
      · show ¬ ((fupd σ.strategies sid
            { σ.strategies sid with executed := true } sid).id = 0)
        rw [fupd_same]
        exact hid
      · show ¬ ((fupd σ.strategies sid
            { σ.strategies sid with executed := true } sid).approved = false)
        rw [fupd_same]
        simp [hap]
      · show (fupd σ.strategies sid
            { σ.strategies sid with executed := true } sid).executed = true
        rw [fupd_same]
    · intro caller2
      exact executeStrategy_executed_not_ok _ caller2 sid (by
        show (fupd σ.strategies sid { σ.strategies sid with executed := true } sid).executed = true
        rw [fupd_same])

/-- C4 witness: the exactly-once execution realised on a concrete
approved strategy. -/
theorem C4_witness :
    ∃ σ', demoVaultA.executeStrategy 3 1 = .ok σ' ∧
      σ'.balances 100 = 0 ∧
      σ'.usdc = demoVaultA.usdc.move 2 3 10 ∧
      (σ'.strategies 1).executed = true ∧
      (σ'.positions 100).activeStrategyId = 1 ∧
      ((2 : Nat) ≠ 3 → σ'.usdc.bal 3 = demoVaultA.usdc.bal 3 + 10) ∧
      σ'.executeStrategy 3 1 = .error .StrategyAlreadyExecuted ∧
      (∀ caller2, isOkE (σ'.executeStrategy caller2 1) = false) :=
  (C4_execute_exactly_once demoVaultA 3 1 (Or.inl rfl) (by decide) (by decide)
    (by decide)).2 (by decide) (by decide)

/-- C5: `ccipReceive` rejects any caller other than the trusted CCIP
router with `OnlyRouter`; an already processed message id fails
`MessageAlreadyProcessed` (and, every revert being a rollback, changes
no state); a fresh id carrying at least one token amount is marked
processed and its inbound amount is logged; and over any at-least-once
delivery sequence from a constructor state each message id is logged at
most once. -/
theorem C5_receive_exactly_once :
    (∀ (σ : BridgeState) (caller : Nat) (m : Any2EVMMessage),
      ¬ (caller = σ.ccipRouter) → σ.ccipReceive caller m = .error .OnlyRouter) ∧
    (∀ (σ : BridgeState) (m : Any2EVMMessage),
      σ.processedMessages m.messageId = true →
      σ.ccipReceive σ.ccipRouter m = .error .MessageAlreadyProcessed) ∧
    (∀ (σ : BridgeState) (m : Any2EVMMessage) (ta : EVMTokenAmount)
        (rest : List EVMTokenAmount),
      σ.processedMessages m.messageId = false →
      m.destTokenAmounts = ta :: rest →
      ∃ σ', σ.ccipReceive σ.ccipRouter m = .ok σ' ∧
        σ'.processedMessages m.messageId = true ∧
        σ'.receivedLog =
          (m.messageId, m.sourceChainSelector, ta.amount) :: σ.receivedLog) ∧
    (∀ (σ : BridgeState) (ds : List (Nat × Any2EVMMessage)),
      BridgeInv σ → ∀ mid, countId mid (deliverAll σ ds).receivedLog ≤ 1) ∧
    (∀ deployer bridgeAddr ccipRouter usdcAddr linkAddr usdc link maxAllowance,
      BridgeInv (BridgeState.init deployer bridgeAddr ccipRouter usdcAddr linkAddr
        usdc link maxAllowance)) := by
  refine ⟨?_, ?_, ?_, ?_, ?_⟩
  · intro σ caller m hne
    unfold BridgeState.ccipReceive
    rw [if_pos hne]
  · intro σ m hp
    unfold BridgeState.ccipReceive
    rw [if_neg (not_not_intro rfl), if_pos hp]
  · intro σ m ta rest hp hta
    unfold BridgeState.ccipReceive
    rw [if_neg (not_not_intro rfl), if_neg (by simp [hp]), hta]
    refine ⟨_, rfl, ?_, rfl⟩
    exact fupd_same _ _ _
  · intro σ ds hInv mid
    exact (deliverAll_inv ds σ hInv).2 mid
  · intro deployer bridgeAddr ccipRouter usdcAddr linkAddr usdc link maxAllowance
    constructor
    · intro e he
      simp [BridgeState.init] at he
    · intro mid
      simp [BridgeState.init, countId]

/-- C5 witness: all four behaviours realised on the concrete bridge. -/
theorem C5_witness :
    demoBridge.ccipReceive 12 ⟨78, 10, 0, 0, [⟨7, 5⟩]⟩ = .error .OnlyRouter ∧
    demoBridge.ccipReceive 6 ⟨77, 10, 0, 0, [⟨7, 5⟩]⟩ = .error .MessageAlreadyProcessed ∧
    (∃ σ', demoBridge.ccipReceive 6 ⟨78, 10, 0, 0, [⟨7, 5⟩]⟩ = .ok σ' ∧
      σ'.processedMessages 78 = true ∧
      σ'.receivedLog = (78, 10, 5) :: demoBridge.receivedLog) ∧
    (∀ mid, countId mid
      (deliverAll demoBridge [(6, ⟨78, 10, 0, 0, [⟨7, 5⟩]⟩)]).receivedLog ≤ 1) := by
  have hInv : BridgeInv demoBridge := by
    constructor
    · intro e he
      have he' : e = (77, 10, 5) := by
        simpa [demoBridge] using he
      rw [he']
      decide
    · intro mid
      show List.countP _ [(77, 10, 5)] ≤ 1
      rw [List.countP_cons]
      simp only [List.countP_nil]
      split <;> omega
  exact ⟨C5_receive_exactly_once.1 demoBridge 12 ⟨78, 10, 0, 0, [⟨7, 5⟩]⟩ (by decide),
         C5_receive_exactly_once.2.1 demoBridge ⟨77, 10, 0, 0, [⟨7, 5⟩]⟩ (by decide),
         C5_receive_exactly_once.2.2.1 demoBridge ⟨78, 10, 0, 0, [⟨7, 5⟩]⟩ ⟨7, 5⟩ []
           (by decide) rfl,
         C5_receive_exactly_once.2.2.2.1 demoBridge
           [(6, ⟨78, 10, 0, 0, [⟨7, 5⟩]⟩)] hInv⟩

/-- C6: for an authorized caller, `proposeStrategy` fails
`InsufficientBalance` exactly when the owner balance is below
`totalAmount`, and otherwise stores an unapproved, unexecuted record and
returns `nextStrategyId`, incrementing it; success is independent of the
allocation list (no check that the amounts sum to `totalAmount`); and
over any call sequence from the constructor the returned ids are
strictly increasing starting at 1. -/
theorem C6_propose_ids :
    (∀ (σ : VaultState) (caller user : Nat) (allocs : List Allocation) (total : Nat),
      (caller = σ.router ∨ caller = σ.owner) →
      (σ.balances user < total →
        σ.proposeStrategy caller user allocs total = .error .InsufficientBalance) ∧
      (total ≤ σ.balances user →
        ∃ σ', σ.proposeStrategy caller user allocs total = .ok (σ', σ.nextStrategyId) ∧
          σ'.nextStrategyId = σ.nextStrategyId + 1 ∧
          σ'.strategies σ.nextStrategyId =
            ⟨σ.nextStrategyId, user, allocs, total, σ.time, false, false⟩)) ∧
    (∀ (σ : VaultState) (caller user : Nat) (allocs1 allocs2 : List Allocation)
        (total : Nat),
      isOkE (σ.proposeStrategy caller user allocs1 total) =
        isOkE (σ.proposeStrategy caller user allocs2 total)) ∧
    (∀ deployer vaultAddr time usdc,
      (VaultState.init deployer vaultAddr time usdc).nextStrategyId = 1) ∧
    (∀ deployer vaultAddr time usdc (ops : List VOp),
      List.Chain' (· < ·) (runCollect (VaultState.init deployer vaultAddr time usdc) ops) ∧
      (∀ j, (runCollect (VaultState.init deployer vaultAddr time usdc) ops).head? =
        some j → j = 1)) := by
  refine ⟨?_, ?_, fun _ _ _ _ => rfl, ?_⟩
  · intro σ caller user allocs total hauth
    constructor
    · intro hlt
      unfold VaultState.proposeStrategy
      rw [if_neg (not_not_intro hauth), if_pos hlt]
    · intro hge
      unfold VaultState.proposeStrategy
      rw [if_neg (not_not_intro hauth), if_neg (by omega)]
      refine ⟨_, rfl, rfl, ?_⟩
      exact fupd_same _ _ _
  · intro σ caller user allocs1 allocs2 total
    unfold VaultState.proposeStrategy
    by_cases hauth : ¬ (caller = σ.router ∨ caller = σ.owner)
    · rw [if_pos hauth, if_pos hauth]
    · rw [if_neg hauth, if_neg hauth]
      by_cases hlt : σ.balances user < total
      · rw [if_pos hlt, if_pos hlt]
      · rw [if_neg hlt, if_neg hlt]
        rfl
  · intro deployer vaultAddr time usdc ops
    exact ⟨(runCollect_chain ops _).1, fun j hj => (runCollect_chain ops _).2 j hj⟩

/-- C6 witness: the characterization realised on a concrete vault,
including a two-proposal run from the constructor returning ids 1 then
2. -/
theorem C6_witness :
    demoVault.proposeStrategy 3 100 [] 20 = .error .InsufficientBalance ∧
    (∃ σ', demoVault.proposeStrategy 3 100 [] 5 = .ok (σ', 2) ∧
      σ'.nextStrategyId = 3 ∧
      σ'.strategies 2 = ⟨2, 100, [], 5, 0, false, false⟩) ∧
    isOkE (demoVault.proposeStrategy 3 100 [] 5) =
      isOkE (demoVault.proposeStrategy 3 100 [⟨0, 1, 2, 3, 4⟩] 5) ∧
    List.Chain' (· < ·) (runCollect (VaultState.init 1 2 0 demoUsdc)
      [.proposeOp 1 4 [] 0, .proposeOp 1 4 [] 0]) :=
  ⟨(C6_propose_ids.1 demoVault 3 100 [] 20 (Or.inl rfl)).1 (by decide),
   (C6_propose_ids.1 demoVault 3 100 [] 5 (Or.inl rfl)).2 (by decide),
   C6_propose_ids.2.1 demoVault 3 100 [] [⟨0, 1, 2, 3, 4⟩] 5,
   (C6_propose_ids.2.2.2 1 2 0 demoUsdc [.proposeOp 1 4 [] 0, .proposeOp 1 4 [] 0]).1⟩

/-- C8: `bridgeTokens` to a chain whose allowed flag is unset fails
`ChainNotAllowed` (before any asset is pulled — every revert is a full
rollback); to an allowed chain with no configured receiver it fails
`InvalidReceiver`; and when the chain checks pass, the asset pull from the
caller succeeds, but the LINK balance of the bridge is below the
quoted transport fee, it fails `InsufficientLinkFees`, the whole call aborting
atomically. -/
theorem C8_bridge_errors (σ : BridgeState) (T : Transport)
    (caller destChainSelector amount data : Nat) :
    (σ.allowedChains destChainSelector = false →
      σ.bridgeTokens T caller destChainSelector amount data = .error .ChainNotAllowed) ∧
    (σ.allowedChains destChainSelector = true →
      σ.destinationReceivers destChainSelector = 0 →
      σ.bridgeTokens T caller destChainSelector amount data = .error .InvalidReceiver) ∧
    (σ.allowedChains destChainSelector = true →
      σ.destinationReceivers destChainSelector ≠ 0 →
      amount ≤ σ.usdc.allow caller σ.bridgeAddr →
      amount ≤ σ.usdc.bal caller →
      σ.link.bal σ.bridgeAddr <
        T.getFee destChainSelector (σ.buildMessage destChainSelector amount data) →
      σ.bridgeTokens T caller destChainSelector amount data
        = .error .InsufficientLinkFees) := by
  refine ⟨?_, ?_, ?_⟩
  · intro hna
    unfold BridgeState.bridgeTokens
    rw [if_pos hna]
  · intro hal hrecv
    unfold BridgeState.bridgeTokens
    rw [if_neg (by simp [hal]), if_pos hrecv]
  · intro hal hrecv hallow hbal hfee
    unfold BridgeState.bridgeTokens
    rw [if_neg (by simp [hal]), if_neg hrecv]
    cases htf : σ.usdc.transferFrom σ.bridgeAddr caller σ.bridgeAddr amount with
    | error e =>
      exfalso
      unfold ERC20.transferFrom at htf
      rw [if_neg (by omega), if_neg (by omega)] at htf
      simp at htf
    | ok usdc1 =>
      simp only [htf]
      rw [if_pos hfee]

/-- C8 witness: the three failure modes realised on the concrete
bridge and transport. -/
theorem C8_witness :
    demoBridge.bridgeTokens demoTransport 9 99 50 0 = .error .ChainNotAllowed ∧
    demoBridge.bridgeTokens demoTransport 9 12 50 0 = .error .InvalidReceiver ∧
    demoBridge.bridgeTokens demoTransport 9 10 50 0 = .error .InsufficientLinkFees :=
  ⟨(C8_bridge_errors demoBridge demoTransport 9 99 50 0).1 (by decide),
   (C8_bridge_errors demoBridge demoTransport 9 12 50 0).2.1 (by decide) (by decide),
   (C8_bridge_errors demoBridge demoTransport 9 10 50 0).2.2 (by decide) (by decide)
     (by decide) (by decide) (by decide)⟩

/-- C2 counterexample: the claim says every local allocation is
dispatched or the whole call errors; here a successful
`executeFullStrategy` run carries one local allocation whose protocol
address 55 matches neither configured pool (20 and 21), and the call
succeeds while emitting no dispatch at all — the allocation is silently
dropped. -/
theorem C2_counterexample :
    isOkE (demoWorld.executeFullStrategy 1 1) = true ∧
    eventsOfW (demoWorld.executeFullStrategy 1 1) = [] ∧
    (demoWorld.vault.strategies 1).allocations = [⟨0, 55, 9, 10, 0⟩] ∧
    (demoWorld.router.protocols Protocol.AAVE_V3).pool ≠ 55 ∧
    (demoWorld.router.protocols Protocol.COMPOUND_V3).pool ≠ 55 :=
  ⟨rfl, rfl, rfl, by decide, by decide⟩

/-- C2 (amended): a successful `executeFullStrategy` emits exactly the
dispatch plan of the strategy allocations in list order — a local
allocation matching the Aave or Compound pool address is dispatched via
`deployToProtocol`, a non-local allocation via `bridgeFunds`, and a
local allocation matching neither configured adapter is silently
skipped, producing no dispatch and no error. -/
theorem C2_dispatch_plan (w w' : World) (caller sid : Nat)
    (h : w.executeFullStrategy caller sid = .ok w') :
    w'.router.events = w.router.events ++
      plannedDispatches w.router.protocols (w.vault.strategies sid).user
        (w.vault.strategies sid).allocations := by
  unfold World.executeFullStrategy at h
  split at h
  · simp at h
  · cases hv : w.vault.executeStrategy w.router.routerAddr sid with
    | error e =>
      rw [hv] at h
      simp at h
    | ok v' =>
      rw [hv] at h
      exact execAllocs_events (w.vault.strategies sid).allocations
        { vault := v', router := w.router } w' caller (w.vault.strategies sid).user h

/-- C2 witness: the dispatch-plan law applied to the concrete run. -/
theorem C2_witness :
    ∃ w', demoWorld.executeFullStrategy 1 1 = .ok w' ∧
      w'.router.events = demoWorld.router.events ++
        plannedDispatches demoWorld.router.protocols
          (demoWorld.vault.strategies 1).user
          (demoWorld.vault.strategies 1).allocations := by
  cases hh : demoWorld.executeFullStrategy 1 1 with
  | error e =>
    have hok : isOkE (demoWorld.executeFullStrategy 1 1) = true := rfl
    rw [hh] at hok
    simp [isOkE] at hok
  | ok w' =>
    exact ⟨w', rfl, C2_dispatch_plan demoWorld w' 1 1 hh⟩

end YieldPilot
